import Mathlib

/-!
# Verification of the mock HTTP API server (`tests/infrastructure/external_apis/server.py`)

This file is a shallow embedding of `MockAPIServer` from
`src/tests/infrastructure/external_apis/server.py`.  The server's pure request-handling
logic (path matching, path-parameter extraction, payload resolution, lifecycle state,
request dispatch) is translated into executable Lean definitions, and the specification's
claims about it are settled as theorems.

Modelling conventions:

* JSON documents are the inductive `Json` below; Python `dict`s are association lists
  with insertion-order semantics (`setKey` replaces in place, appends new keys at the
  end, exactly like `d[k] = v`; `updKeys` is `dict.update`).
* The filesystem of payload files is an explicit association list `fs` from path
  strings to parsed JSON contents; `Path.exists()` is membership, `_load_json_file`
  is lookup.
* The parsed OpenAPI document (`spec_loader._load_spec()`) is given as data:
  a list of `(path template, path item)` pairs in document order, each path item a
  list of `(method, responses)` pairs, each responses a list of
  `(status code, optional x-mock-payload)` pairs.  An absent `x-mock-payload` key is
  `none`; the Python truthiness tests `if not response` / `if not mock_payload`
  produce the same control flow under this encoding (empty/missing both continue).
* `re.sub(r"\{[^}]+\}", r"[^/]+", template)` followed by `re.match(f"^{pattern}$", actual)`
  is modelled by `compileTemplate`/`rmatch`: the template is compiled to a sequence of
  literal characters and `[^/]+` atoms, and matched with backtracking.  Literal
  characters are matched by equality, which is faithful to the Python regex for
  templates whose literal characters are not regex metacharacters
  (`. ^ $ * + ? ( ) [ ] | \`); the theorems about matching restrict templates
  accordingly.
* `str.format(**params)` is `pyFormat`: `{{`/`}}` escapes, `{name}` substitution,
  `none` on a missing key (KeyError) or malformed braces (ValueError) — both are
  caught by the same `except (KeyError, ValueError)` in the source.  Positional
  fields (`{}`), attribute access and format specs, which do not occur in this
  repository's payload path templates, are also mapped to `none`.
* `int(s)` is `pyInt` (optional sign and decimal digits; the whitespace/underscore
  forms Python also accepts do not occur in this code's inputs).
* Machine-level concerns (sockets, threads, uvicorn) are out of scope; the claims
  are about `_handle_request`, `_find_matching_payload`, `_resolve_path_params`,
  `_path_matches` and `reset_state`, all of which are pure given the spec document,
  the payload files and the `_state` dictionary.
-/

namespace MockServer

/-- JSON values, as produced by `json.load` / sent by `JSONResponse`. -/
inductive Json where
  | null
  | bool (b : Bool)
  | num (n : Int)
  | str (s : String)
  | arr (elems : List Json)
  | obj (fields : List (String × Json))

/-- Python truthiness of a JSON value (`if payload:`): `None`, `False`, `0`, `""`,
`[]` and `{}` are falsy. -/
def Json.truthy : Json → Bool
  | .null => false
  | .bool b => b
  | .num n => n != 0
  | .str s => !s.isEmpty
  | .arr xs => !xs.isEmpty
  | .obj fs => !fs.isEmpty

/-- Truthiness of an optional JSON value (`None` is falsy). -/
def optTruthy : Option Json → Bool
  | none => false
  | some j => j.truthy

/-- First-match association list lookup (`d.get(k)` on a Python dict whose pairs are
kept in insertion order with unique keys). -/
def lookupStr {α : Type} : List (String × α) → String → Option α
  | [], _ => none
  | (k', v) :: rest, k => if k' = k then some v else lookupStr rest k

/-- `d[k] = v` on a Python dict: replace the value in place if the key is present,
append the pair otherwise. -/
def setKey {α : Type} : List (String × α) → String → α → List (String × α)
  | [], k, v => [(k, v)]
  | (k', v') :: rest, k, v =>
      if k' = k then (k, v) :: rest else (k', v') :: setKey rest k v

/-- `d.update(other)` on Python dicts: set each key of `other` in order. -/
def updKeys {α : Type} (m : List (String × α)) (upd : List (String × α)) :
    List (String × α) :=
  upd.foldl (fun acc p => setKey acc p.1 p.2) m

/-- Membership of a key (`k in d`). -/
def membKey {α : Type} : List (String × α) → String → Bool
  | [], _ => false
  | (k', _) :: rest, k => if k' = k then true else membKey rest k

/-- Keys are pairwise distinct (every Python dict satisfies this). -/
def keysNodup {α : Type} : List (String × α) → Bool
  | [] => true
  | (k, _) :: rest => !membKey rest k && keysNodup rest

/-- Membership in a list of strings (`key in state`). -/
def memb (k : String) : List String → Bool
  | [] => false
  | x :: rest => if x = k then true else memb k rest

/-- ASCII lowering of one character (`str.lower`, ASCII fragment; the method names
this code lowers are ASCII). -/
def pyLowerChar (c : Char) : Char :=
  if 'A' ≤ c ∧ c ≤ 'Z' then Char.ofNat (c.toNat + 32) else c

/-- `s.lower()` (ASCII fragment). -/
def pyLower (s : String) : String := ⟨s.data.map pyLowerChar⟩

/-- Decimal digit run to a natural number, `none` if empty or non-digit. -/
def digitsToNat (ds : List Char) : Option Nat :=
  if ds = [] then none
  else if ds.all Char.isDigit then
    some (ds.foldl (fun a c => a * 10 + (c.toNat - 48)) 0)
  else none

/-- `int(s)` for plain decimal literals with an optional sign; `none` models the
`ValueError` branch. -/
def pyInt (s : String) : Option Int :=
  match s.data with
  | '-' :: ds => (digitsToNat ds).map fun n => -(n : Int)
  | '+' :: ds => (digitsToNat ds).map fun n => (n : Int)
  | ds => (digitsToNat ds).map fun n => (n : Int)

/-- `s.split("/")` on the character list: keeps empty segments, `[[]]` on the
empty string — exactly Python's `str.split` with an explicit separator. -/
def splitSeg : List Char → List (List Char)
  | [] => [[]]
  | c :: rest =>
      if c = '/' then [] :: splitSeg rest
      else
        match splitSeg rest with
        | [] => [[c]]
        | s :: ss => (c :: s) :: ss

/-- `MockAPIServer._resolve_path_params`: zip the template's `/`-segments against the
actual path's segments; a segment count mismatch yields `{}`; a segment of the form
`{name}` binds `name` to the actual segment. -/
def resolve_path_params (tmpl actual : String) : List (String × String) :=
  let tp := splitSeg tmpl.data
  let ap := splitSeg actual.data
  if tp.length = ap.length then
    (tp.zip ap).foldl
      (fun acc pr =>
        match pr.1 with
        | '{' :: rest =>
            match rest.getLast? with
            | some '}' => setKey acc ⟨rest.dropLast⟩ ⟨pr.2⟩
            | _ => acc
        | _ => acc)
      []
  else []

/-- One atom of the compiled path regex: a literal character, or `[^/]+`
(the replacement for a `{param}`). -/
inductive RPiece where
  | lit (c : Char)
  | param

/-- Scanner for `re.sub(r"\{[^}]+\}", r"[^/]+", template)`: in normal mode
(`none`) literal characters pass through; `{` opens brace mode (`some acc`),
which accumulates non-`}` characters; a `}` after at least one such character
emits a `[^/]+` atom, `{}` and an unterminated `{` stay literal (the regex
requires at least one inner character, and with no closing `}` no later match
can start inside the scanned region either). -/
def compileAux : List Char → Option (List Char) → List RPiece
  | [], none => []
  | [], some acc => .lit '{' :: acc.reverse.map .lit
  | c :: rest, none =>
      if c = '{' then compileAux rest (some [])
      else .lit c :: compileAux rest none
  | c :: rest, some acc =>
      if c = '}' then
        if acc.isEmpty then .lit '{' :: .lit '}' :: compileAux rest none
        else .param :: compileAux rest none
      else compileAux rest (some (c :: acc))

/-- Compile a path template to regex atoms, as `_path_matches` does. -/
def compileTemplate (t : List Char) : List RPiece := compileAux t none

/-- Backtracking matcher for the compiled pattern against the whole string
(`re.match` with `^...$`): a literal atom consumes its exact character, a
`[^/]+` atom consumes one or more non-`/` characters. -/
def rmatch : List RPiece → List Char → Bool
  | [], [] => true
  | [], _ :: _ => false
  | .lit _ :: _, [] => false
  | .lit c :: ps, a :: as => c = a && rmatch ps as
  | .param :: _, [] => false
  | .param :: ps, a :: as =>
      !(a = '/') && (rmatch ps as || rmatch (.param :: ps) as)

/-- `MockAPIServer._path_matches`: substitute `[^/]+` for each `{param}` and
full-match the concrete path. -/
def path_matches (tmpl actual : String) : Bool :=
  rmatch (compileTemplate tmpl.data) actual.data

/-- `str.format(**params)` scanner. Normal mode (`none`): `{{` and `}}` are
escapes, a bare `}` is a ValueError, `{` opens a field. Field mode (`some acc`):
accumulate the field name until `}`, then substitute its value; an unknown name is
a KeyError, a `{` inside a field a ValueError. All errors are `none`, matching
the single `except (KeyError, ValueError)` around the call in the source. -/
def pyFormatAux (params : List (String × String)) :
    List Char → Option (List Char) → Option (List Char)
  | [], none => some []
  | [], some _ => none
  | '{' :: '{' :: rest, none => (pyFormatAux params rest none).map ('{' :: ·)
  | '{' :: rest, none => pyFormatAux params rest (some [])
  | '}' :: '}' :: rest, none => (pyFormatAux params rest none).map ('}' :: ·)
  | '}' :: _, none => none
  | c :: rest, none => (pyFormatAux params rest none).map (c :: ·)
  | c :: rest, some acc =>
      if c = '}' then
        match lookupStr params ⟨acc.reverse⟩ with
        | some v => (pyFormatAux params rest none).map (v.data ++ ·)
        | none => none
      else if c = '{' then none
      else pyFormatAux params rest (some (c :: acc))

/-- `s.format(**params)`, `none` on KeyError/ValueError. -/
def pyFormat (s : String) (params : List (String × String)) : Option String :=
  (pyFormatAux params s.data none).map fun cs => ⟨cs⟩

/-- The final path component (`PurePath.name`): everything after the last `/`. -/
def lastComponent (cs : List Char) : List Char :=
  (cs.reverse.takeWhile (fun c => !(c = '/'))).reverse

/-- `pathlib.Path(...).stem`: the final component minus its last dot-suffix; a
leading or trailing dot does not count as a suffix separator. -/
def pyStem (s : String) : String :=
  let name := lastComponent s.data
  match name.reverse.findIdx? (fun c => c = '.') with
  | some j =>
      let i := name.length - 1 - j
      if 0 < i ∧ i < name.length - 1 then ⟨name.take i⟩ else ⟨name⟩
  | none => ⟨name⟩

/-- `re.findall(r"(\d+)", s)`: the maximal runs of decimal digits, left to right.
Normal mode (`none`) skips non-digits; run mode (`some acc`) accumulates the
current (reversed) run. -/
def digitRunsAux : List Char → Option (List Char) → List String
  | [], none => []
  | [], some acc => [⟨acc.reverse⟩]
  | c :: rest, none =>
      if c.isDigit then digitRunsAux rest (some [c]) else digitRunsAux rest none
  | c :: rest, some acc =>
      if c.isDigit then digitRunsAux rest (some (c :: acc))
      else ⟨acc.reverse⟩ :: digitRunsAux rest none

/-- All maximal digit runs of a string. -/
def digitRuns (cs : List Char) : List String := digitRunsAux cs none

/-- The responses of one operation: status code string to the optional
`x-mock-payload` value of that response object. -/
abbrev Responses := List (String × Option String)

/-- One path item: lowercase method name to operation responses. -/
abbrev PathItem := List (String × Responses)

/-- Everything `_find_matching_payload` and `_handle_request` read:
the api name (used in the `deleted_{api}_{id}` state keys), the spec directory
(payload paths are joined onto it), the parsed OpenAPI `paths` table in document
order, and the payload files on disk as an association list from path to parsed
JSON contents. -/
structure Env where
  apiName : String
  specDir : String
  specPaths : List (String × PathItem)
  fs : List (String × Json)

/-- File lookup: `some` iff `Path.exists()`, with `_load_json_file`'s parse. -/
def fsGet (env : Env) (p : String) : Option Json := lookupStr env.fs p

/-- Overwrite the `id` field with `int(requested_id)` when the payload is a dict
(`payload["id"] = int(requested_id)` under `isinstance(payload, dict)`); the
requested id equals an all-digit token here, so `int` cannot fail. -/
def overwriteId (rid : String) : Json → Json
  | .obj fields => .obj (setKey fields "id" (.num ((pyInt rid).getD 0)))
  | j => j

/-- The numeric-token heuristic of `_find_matching_payload` (strategy 2): with
more than one digit run in the template's stem, any run but the last equal to the
requested id selects the template (id overwritten); with exactly one run, that
run must equal the requested id; with none the endpoint is skipped. -/
def matchNums (nums : List String) (rid : String) (payload : Json) : Option Json :=
  match nums with
  | [] => none
  | [n] => if n = rid then some (overwriteId rid payload) else none
  | _ => if (nums.dropLast).any (fun n => n = rid) then some (overwriteId rid payload)
         else none

/-- The loop body of `_find_matching_payload` over `spec["paths"]`, threading the
`path_params` dict it mutates (`path_params.update(extracted_params)` happens for
every matching template, even ones later skipped).  Returns the payload (if any)
and the final state of the dict. -/
def findGo (env : Env) (method path status : String) :
    List (String × PathItem) → List (String × String) →
    Option Json × List (String × String)
  | [], pp => (none, pp)
  | (sp, item) :: rest, pp =>
      if path_matches sp path then
        let pp := updKeys pp (resolve_path_params sp path)
        match lookupStr item (pyLower method) with
        | none => findGo env method path status rest pp
        | some responses =>
          match lookupStr responses status with
          | none => findGo env method path status rest pp
          | some mpOpt =>
            match mpOpt with
            | none => findGo env method path status rest pp
            | some mp =>
              if mp = "" then findGo env method path status rest pp
              else
                let tmpl := env.specDir ++ "/" ++ mp
                match lookupStr pp "id" with
                | some rid =>
                  -- strategy 1: exact filename with the params substituted
                  let s1 : Option Json :=
                    match pyFormat tmpl pp with
                    | some fp => fsGet env fp
                    | none => none
                  match s1 with
                  | some j => (some j, pp)
                  | none =>
                    -- template file must exist to try the numeric-token heuristic
                    match fsGet env tmpl with
                    | none => findGo env method path status rest pp
                    | some tp =>
                      match matchNums (digitRuns (pyStem tmpl).data) rid tp with
                      | some j => (some j, pp)
                      | none => findGo env method path status rest pp
                | none =>
                  -- no id parameter: serve the template file as-is
                  match fsGet env tmpl with
                  | some j => (some j, pp)
                  | none => findGo env method path status rest pp
      else findGo env method path status rest pp

/-- `MockAPIServer._find_matching_payload` (payload only). -/
def find_matching_payload (env : Env) (method path status : String)
    (pp : List (String × String)) : Option Json :=
  (findGo env method path status env.specPaths pp).1

/-- A call to `_find_matching_payload` as the handler sees it: the result, plus
the caller's `path_params` dict afterwards.  `path_params = path_params or {}`
replaces an empty caller dict with a fresh one, so mutations are only visible to
the caller when the dict passed in was non-empty. -/
def fmpCall (env : Env) (method path status : String)
    (pp : List (String × String)) : Option Json × List (String × String) :=
  let r := findGo env method path status env.specPaths pp
  (r.1, if pp = [] then pp else r.2)

/-- The synthetic error body `{"error": "Not found", "message": msg}`. -/
def synthBody (msg : String) : Json :=
  .obj [("error", .str "Not found"), ("message", .str msg)]

/-- The `default_status` dict lookup with default `"200"`. -/
def defaultStatusFor (m : String) : String :=
  if m = "get" then "200"
  else if m = "post" then "201"
  else if m = "put" then "200"
  else if m = "patch" then "200"
  else "200"

/-- `int(default_status)` as a `Nat` (the strings here are always numeric). -/
def pyStatusNat (s : String) : Nat :=
  match pyInt s with
  | some n => n.toNat
  | none => 0

/-- `state[key] = True` on the deleted-marker dict: the key set. -/
def insertMark (deleted : List String) (k : String) : List String :=
  if memb k deleted then deleted else deleted ++ [k]

/-- The tail of `_handle_request` after the lifecycle branches (source lines
297-345): resolve the default-status payload; on a miss answer 404 with the
declared 404 payload if truthy, else the synthetic body; on a hit, for POST/PUT
with a JSON-object body, shallow-merge the body over a dict payload
(`payload.update(request_body)`) and force `id` to `int(path_params["id"])` when
that parses; emit 201 for POST, else the numeric default status.  `reqBody` is
`none` when the body is absent or fails to parse (`await request.json()` raised;
the whole merge block is inside `try/except Exception: pass`, which also swallows
`dict.update` on non-dict bodies).  This region never touches `_state`. -/
def handle_tail (env : Env) (method m actualPath : String) (reqBody : Option Json)
    (pp : List (String × String)) : Nat × Option Json :=
  let ds := defaultStatusFor m
  let r := fmpCall env method actualPath ds pp
  match r.1 with
  | none =>
    let e := fmpCall env method actualPath "404" r.2
    if optTruthy e.1 then (404, e.1)
    else (404, some (synthBody ("No mock payload found for " ++ method ++ " " ++ actualPath)))
  | some pl =>
    let pl2 :=
      if m = "post" ∨ m = "put" then
        match reqBody, pl with
        | some (Json.obj bf), Json.obj plf =>
          let merged := updKeys plf bf
          let merged2 :=
            match lookupStr r.2 "id" with
            | some rid =>
              match pyInt rid with
              | some n => setKey merged "id" (.num n)
              | none => merged
            | none => merged
          Json.obj merged2
        | _, _ => pl
      else pl
    let status : Nat := if m = "post" then 201 else pyStatusNat ds
    if status = 204 then (204, none) else (status, some pl2)

/-- `MockAPIServer._handle_request`.  Inputs: the environment, the `_state` keys
currently set (the deleted markers), the route's registered (lowercase) method,
the route's spec path template, the concrete request path, and the parsed request
body (`none` = absent or unparseable).  Output: `((status code, body), new state)`;
a `none` body is the empty `Response(status_code=204)`.

Stage 1 (lines 264-272): for GET with an `id` param whose deleted marker is set,
answer 404 with the declared 404 payload when it resolves truthy — otherwise fall
through to normal handling with the mutated params dict.
Stage 2 (lines 274-295): DELETE with an `id` param checks whether the equivalent
GET at 200 resolves (the deleted marker is NOT consulted here); on success it sets
the marker and returns an empty 204, on failure 404; DELETE without an `id` param
is an unconditional empty 204.  Everything else goes to `handle_tail`. -/
def handle_request (env : Env) (deleted : List String)
    (method specPath actualPath : String) (reqBody : Option Json) :
    (Nat × Option Json) × List String :=
  let m := pyLower method
  let pp0 := resolve_path_params specPath actualPath
  let stage1 : Option (Nat × Option Json) × List (String × String) :=
    if m = "get" then
      match lookupStr pp0 "id" with
      | some rid =>
        if memb ("deleted_" ++ env.apiName ++ "_" ++ rid) deleted then
          let r := fmpCall env method actualPath "404" pp0
          if optTruthy r.1 then (some (404, r.1), r.2) else (none, r.2)
        else (none, pp0)
      | none => (none, pp0)
    else (none, pp0)
  match stage1.1 with
  | some resp => (resp, deleted)
  | none =>
    let pp := stage1.2
    if m = "delete" then
      match lookupStr pp "id" with
      | some rid =>
        let key := "deleted_" ++ env.apiName ++ "_" ++ rid
        let r := fmpCall env "get" actualPath "200" pp
        match r.1 with
        | some _ => ((204, none), insertMark deleted key)
        | none =>
          let e := fmpCall env "get" actualPath "404" r.2
          if optTruthy e.1 then ((404, e.1), deleted)
          else ((404, some (synthBody "Resource not found")), deleted)
      | none => ((204, none), deleted)
    else (handle_tail env method m actualPath reqBody pp, deleted)

/-- `MockAPIServer.reset_state`: `self._state.clear()`. -/
def reset_state (_st : List String) : List String := []

/-! ## Association-list (Python dict) lemmas -/

theorem lookupStr_setKey_self {α : Type} (m : List (String × α)) (k : String) (v : α) :
    lookupStr (setKey m k v) k = some v := by
  induction m with
  | nil => simp [setKey, lookupStr]
  | cons p rest ih =>
      by_cases h : p.1 = k
      · simp [setKey, h, lookupStr]
      · simp [setKey, h, lookupStr, ih]

theorem lookupStr_setKey_ne {α : Type} (m : List (String × α)) (k k' : String) (v : α)
    (h : ¬(k' = k)) : lookupStr (setKey m k v) k' = lookupStr m k' := by
  induction m with
  | nil =>
      have : ¬(k = k') := fun hh => h hh.symm
      simp [setKey, lookupStr, this]
  | cons p rest ih =>
      by_cases hp : p.1 = k
      · have : ¬(k = k') := fun hh => h hh.symm
        simp [setKey, hp, lookupStr, this]
      · simp [setKey, hp, lookupStr, ih]

theorem lookupStr_updKeys_none {α : Type} (m upd : List (String × α)) (k : String)
    (h : lookupStr upd k = none) : lookupStr (updKeys m upd) k = lookupStr m k := by
  induction upd generalizing m with
  | nil => rfl
  | cons p rest ih =>
      simp only [lookupStr] at h
      by_cases hp : p.1 = k
      · simp [hp] at h
      · simp only [hp, if_false] at h
        have : updKeys m (p :: rest) = updKeys (setKey m p.1 p.2) rest := by
          simp [updKeys, List.foldl_cons]
        rw [this, ih _ h, lookupStr_setKey_ne _ _ _ _ (fun hh => hp hh.symm)]

theorem membKey_false_lookup {α : Type} (m : List (String × α)) (k : String)
    (h : membKey m k = false) : lookupStr m k = none := by
  induction m with
  | nil => rfl
  | cons p rest ih =>
      by_cases hp : p.1 = k
      · simp [membKey, hp] at h
      · simp only [membKey, hp, if_false] at h
        simp [lookupStr, hp, ih h]

theorem lookupStr_updKeys_some {α : Type} (m upd : List (String × α)) (k : String) (v : α)
    (hnd : keysNodup upd = true) (h : lookupStr upd k = some v) :
    lookupStr (updKeys m upd) k = some v := by
  induction upd generalizing m with
  | nil => simp [lookupStr] at h
  | cons p rest ih =>
      have hstep : updKeys m (p :: rest) = updKeys (setKey m p.1 p.2) rest := by
        simp [updKeys, List.foldl_cons]
      simp only [keysNodup, Bool.and_eq_true, Bool.not_eq_true'] at hnd
      simp only [lookupStr] at h
      by_cases hp : p.1 = k
      · simp only [hp, if_true] at h
        have hrest : lookupStr rest k = none := by
          have := membKey_false_lookup rest p.1 hnd.1
          rwa [hp] at this
        rw [hstep, lookupStr_updKeys_none _ _ _ hrest, hp,
            lookupStr_setKey_self, h]
      · simp only [hp, if_false] at h
        rw [hstep, ih _ hnd.2 h]

theorem memb_insertMark {deleted : List String} {k : String}
    (h : memb k deleted = true) : insertMark deleted k = deleted := by
  simp [insertMark, h]

/-- Skipping non-matching templates at the front of the spec's path table leaves
both the result and the params dict unchanged. -/
theorem findGo_skip (env : Env) (method path status : String)
    (pre rest : List (String × PathItem)) (pp : List (String × String))
    (hpre : ∀ q ∈ pre, path_matches q.1 path = false) :
    findGo env method path status (pre ++ rest) pp
      = findGo env method path status rest pp := by
  induction pre with
  | nil => rfl
  | cons q qs ih =>
      have hq : path_matches q.1 path = false := hpre q (List.mem_cons_self _ _)
      have hqs : ∀ r ∈ qs, path_matches r.1 path = false :=
        fun r hr => hpre r (List.mem_cons_of_mem _ hr)
      obtain ⟨sp, item⟩ := q
      simp only [List.cons_append, findGo, hq]
      exact ih hqs

/-! ## Claim C7: `reset_state` clears all deletion marks -/

/-- C7: `reset_state` clears every recorded deletion mark (it is `_state.clear()`),
so after any DELETE followed by a reset, a GET is handled exactly as on a server
whose state is fresh — in particular an id deleted before the reset resolves again
exactly as it did before the DELETE. -/
theorem c7_reset_restores_resolution (env : Env) (deleted : List String)
    (sp ap sp2 ap2 : String) (rb rb2 : Option Json) :
    reset_state (handle_request env deleted "delete" sp ap rb).2 = []
    ∧ handle_request env
        (reset_state (handle_request env deleted "delete" sp ap rb).2)
        "get" sp2 ap2 rb2
      = handle_request env [] "get" sp2 ap2 rb2 :=
  ⟨rfl, rfl⟩

/-! ## Claim C9: DELETE without an id parameter is an unconditional empty 204 -/

/-- C9: a DELETE dispatched on a route whose template yields no `id` path
parameter returns an empty 204 and leaves the lifecycle state untouched; no
existence check is made (the environment is arbitrary). -/
theorem c9_delete_without_id (env : Env) (deleted : List String) (sp ap : String)
    (rb : Option Json) (hnoid : lookupStr (resolve_path_params sp ap) "id" = none) :
    handle_request env deleted "delete" sp ap rb = ((204, none), deleted) := by
  simp [handle_request, show pyLower "delete" = "delete" from rfl, hnoid]

/-- Environment for the C9 witness: a collection route with a DELETE operation. -/
def envC9 : Env :=
  { apiName := "posts", specDir := "specs",
    specPaths := [("/posts", [("delete", [("204", none)])])],
    fs := [] }

theorem c9_witness :
    lookupStr (resolve_path_params "/posts" "/posts") "id" = none
    ∧ handle_request envC9 ["deleted_posts_1"] "delete" "/posts" "/posts" none
        = ((204, none), ["deleted_posts_1"]) :=
  ⟨rfl, c9_delete_without_id envC9 ["deleted_posts_1"] "/posts" "/posts" none rfl⟩

/-! ## Claim C6: malformed/absent POST/PUT bodies are swallowed -/

/-- C6: when a POST or PUT request's body is absent or fails to parse as JSON
(`reqBody = none`), and the method's default-status payload resolves, the handler
serves that payload unmodified with the method's default success status (201 for
POST, 200 for PUT); the parse failure is never surfaced as an error response. -/
theorem c6_malformed_body_swallowed (env : Env) (deleted : List String)
    (sp ap method : String) (pl : Json)
    (hm : method = "post" ∨ method = "put")
    (hres : find_matching_payload env method ap (defaultStatusFor method)
              (resolve_path_params sp ap) = some pl) :
    handle_request env deleted method sp ap none
      = ((if method = "post" then 201 else 200, some pl), deleted) := by
  rcases hm with h | h <;> subst h
  · have hres' : (findGo env "post" ap "201" env.specPaths
        (resolve_path_params sp ap)).1 = some pl := hres
    simp [handle_request, handle_tail, fmpCall,
      show pyLower "post" = "post" from rfl, defaultStatusFor, hres']
  · have hres' : (findGo env "put" ap "200" env.specPaths
        (resolve_path_params sp ap)).1 = some pl := hres
    simp [handle_request, handle_tail, fmpCall,
      show pyLower "put" = "put" from rfl, defaultStatusFor, hres',
      show pyStatusNat "200" = 200 from rfl]

/-- Environment for the C6 witness: POST /posts with a declared 201 payload. -/
def envC6 : Env :=
  { apiName := "posts", specDir := "specs",
    specPaths := [("/posts", [("post", [("201", some "payloads/POST_posts_201.json")])])],
    fs := [("specs/payloads/POST_posts_201.json",
            Json.obj [("id", Json.num 101), ("title", Json.str "T")])] }

theorem c6_witness :
    ("post" = "post" ∨ "post" = "put")
    ∧ find_matching_payload envC6 "post" "/posts" (defaultStatusFor "post")
        (resolve_path_params "/posts" "/posts")
        = some (Json.obj [("id", Json.num 101), ("title", Json.str "T")])
    ∧ handle_request envC6 [] "post" "/posts" "/posts" none
        = ((if "post" = "post" then 201 else 200,
            some (Json.obj [("id", Json.num 101), ("title", Json.str "T")])), []) :=
  ⟨Or.inl rfl, rfl,
    c6_malformed_body_swallowed envC6 [] "/posts" "/posts" "post" _ (Or.inl rfl) rfl⟩

/-! ## Claim C5: declared payloads without an id parameter are served verbatim -/

/-- C5: for a declared (method, template, status) triple whose payload file
exists, a request matching that template (with no earlier template of the spec
matching) that carries no `id` path parameter resolves to exactly that file's
parsed contents, unmodified. -/
theorem c5_declared_payload_served (env : Env) (method path status mp : String)
    (pre rest : List (String × PathItem)) (sp : String) (item : PathItem)
    (responses : Responses) (j : Json) (pp : List (String × String))
    (hpaths : env.specPaths = pre ++ (sp, item) :: rest)
    (hpre : ∀ q ∈ pre, path_matches q.1 path = false)
    (hmatch : path_matches sp path = true)
    (hop : lookupStr item (pyLower method) = some responses)
    (hst : lookupStr responses status = some (some mp))
    (hmp : ¬(mp = ""))
    (hnoid : lookupStr (updKeys pp (resolve_path_params sp path)) "id" = none)
    (hfile : fsGet env (env.specDir ++ "/" ++ mp) = some j) :
    find_matching_payload env method path status pp = some j := by
  unfold find_matching_payload
  rw [hpaths, findGo_skip env method path status pre _ pp hpre]
  simp [findGo, hmatch, hop, hst, hmp, hnoid, hfile]

/-- Environment for the C5 witness: `GET /posts` with a declared list payload. -/
def envC5 : Env :=
  { apiName := "posts", specDir := "specs",
    specPaths := [("/posts", [("get", [("200", some "payloads/GET_posts_200.json")])])],
    fs := [("specs/payloads/GET_posts_200.json",
            Json.arr [Json.obj [("id", Json.num 1), ("title", Json.str "A")]])] }

theorem c5_witness :
    find_matching_payload envC5 "get" "/posts" "200" []
      = some (Json.arr [Json.obj [("id", Json.num 1), ("title", Json.str "A")]]) :=
  c5_declared_payload_served envC5 "get" "/posts" "200" "payloads/GET_posts_200.json"
    [] [] "/posts" [("get", [("200", some "payloads/GET_posts_200.json")])]
    [("200", some "payloads/GET_posts_200.json")]
    (Json.arr [Json.obj [("id", Json.num 1), ("title", Json.str "A")]]) []
    rfl (fun q hq => absurd hq (List.not_mem_nil q)) rfl rfl rfl (by decide) rfl rfl

/-! ## Claim C4: an endpoint whose template carries no matching id token is skipped -/

/-- With no token of `nums` equal to the requested id, the numeric-token
heuristic rejects the template. -/
theorem matchNums_no_token (nums : List String) (rid : String) (tp : Json)
    (h : ∀ t ∈ nums, ¬(t = rid)) : matchNums nums rid tp = none := by
  match nums with
  | [] => rfl
  | [n] =>
      have := h n (by simp)
      simp [matchNums, this]
  | n1 :: n2 :: ns =>
      have hany : (n1 :: n2 :: ns).dropLast.any (fun t => t = rid) = false := by
        rw [List.any_eq_false]
        intro t ht
        simpa using h t (List.dropLast_subset _ ht)
      simp only [matchNums]
      rw [hany]
      simp

/-- Environment for the C4 scenario and witness: the spec declares a generic
list payload for `/posts` and an id-substituted payload path for `/posts/{id}`;
on disk only the generic list file and the id=1 file exist. -/
def envC4 : Env :=
  { apiName := "posts", specDir := "specs",
    specPaths :=
      [("/posts", [("get", [("200", some "payloads/GET_posts_200.json")])]),
       ("/posts/{id}", [("get", [("200", some "payloads/GET_posts_{id}_200.json")])])],
    fs := [("specs/payloads/GET_posts_200.json",
            Json.arr [Json.obj [("id", Json.num 1), ("title", Json.str "A")]]),
           ("specs/payloads/GET_posts_1_200.json",
            Json.obj [("id", Json.num 1), ("title", Json.str "A")])] }

/-- C4: when no payload file exists at the id-substituted template path and no
numeric token of the template file's stem equals the requested id, resolution
skips the endpoint entirely (continuing with the rest of the spec paths); in
particular `GET /posts/999` against `envC4` — only a generic template and an
id=1-specific payload on disk — answers the synthetic 404, not the id=1 payload. -/
theorem c4_nonmatching_id_not_served (env : Env)
    (method path status sp mp rid : String)
    (item : PathItem) (responses : Responses) (rest : List (String × PathItem))
    (pp : List (String × String))
    (hmatch : path_matches sp path = true)
    (hop : lookupStr item (pyLower method) = some responses)
    (hst : lookupStr responses status = some (some mp))
    (hmp : ¬(mp = ""))
    (hid : lookupStr (updKeys pp (resolve_path_params sp path)) "id" = some rid)
    (hs1 : ∀ fp, pyFormat (env.specDir ++ "/" ++ mp)
              (updKeys pp (resolve_path_params sp path)) = some fp →
            fsGet env fp = none)
    (hnum : ∀ t ∈ digitRuns (pyStem (env.specDir ++ "/" ++ mp)).data, ¬(t = rid)) :
    findGo env method path status ((sp, item) :: rest) pp
      = findGo env method path status rest (updKeys pp (resolve_path_params sp path))
    ∧ handle_request envC4 [] "get" "/posts/{id}" "/posts/999" none
        = ((404, some (synthBody "No mock payload found for get /posts/999")), []) := by
  refine ⟨?_, rfl⟩
  have hstrat1 :
      (match pyFormat (env.specDir ++ "/" ++ mp)
          (updKeys pp (resolve_path_params sp path)) with
       | some fp => fsGet env fp
       | none => none) = (none : Option Json) := by
    cases hf : pyFormat (env.specDir ++ "/" ++ mp)
        (updKeys pp (resolve_path_params sp path)) with
    | none => rfl
    | some fp => simpa using hs1 fp hf
  have hmn : ∀ tpx : Json,
      matchNums (digitRuns (pyStem (env.specDir ++ "/" ++ mp)).data) rid tpx = none :=
    fun tpx => matchNums_no_token _ _ _ hnum
  simp only [findGo, hmatch, if_true, hop, hst, hid]
  rw [if_neg hmp, hstrat1]
  cases ht : fsGet env (env.specDir ++ "/" ++ mp) with
  | none => simp
  | some tp => simp [hmn]

theorem c4_witness :
    findGo envC4 "get" "/posts/999" "200"
        [("/posts/{id}", [("get", [("200", some "payloads/GET_posts_{id}_200.json")])])] []
      = findGo envC4 "get" "/posts/999" "200" []
          (updKeys [] (resolve_path_params "/posts/{id}" "/posts/999"))
    ∧ handle_request envC4 [] "get" "/posts/{id}" "/posts/999" none
        = ((404, some (synthBody "No mock payload found for get /posts/999")), []) :=
  c4_nonmatching_id_not_served envC4 "get" "/posts/999" "200" "/posts/{id}"
    "payloads/GET_posts_{id}_200.json" "999"
    [("get", [("200", some "payloads/GET_posts_{id}_200.json")])]
    [("200", some "payloads/GET_posts_{id}_200.json")] [] []
    rfl rfl rfl (by decide) rfl
    (fun fp h => by
      have h2 : ("specs/payloads/GET_posts_999_200.json" : String) = fp :=
        Option.some.inj h
      rw [← h2]; rfl)
    (fun t ht => by
      rcases List.mem_singleton.mp ht with rfl
      decide)

/-! ## Claim C10: the single-numeric-token heuristic -/

/-- Environment for the C10 counterexample: the declared payload for
`GET /posts/{id}` is the brace-free file `GET_posts_200.json`, which exists and
holds an object with `id = 1`. -/
def envC10 : Env :=
  { apiName := "posts", specDir := "specs",
    specPaths := [("/posts/{id}", [("get", [("200", some "payloads/GET_posts_200.json")])])],
    fs := [("specs/payloads/GET_posts_200.json",
            Json.obj [("id", Json.num 1), ("title", Json.str "A")])] }

/-- C10 counterexample: requesting id "200" against the existing brace-free file
`GET_posts_200.json` returns the file's payload with `id` still 1 — the exact
filename match (strategy 1) fires first and performs no id overwrite, contrary
to the claim that the single-token heuristic overwrites `id` to 200 here. -/
theorem c10_counterexample :
    find_matching_payload envC10 "get" "/posts/200" "200" []
      = some (Json.obj [("id", Json.num 1), ("title", Json.str "A")])
    ∧ overwriteId "200" (Json.obj [("id", Json.num 1), ("title", Json.str "A")])
      = Json.obj [("id", Json.num 200), ("title", Json.str "A")]
    ∧ ¬ ((Json.num 1) = (Json.num 200)) :=
  ⟨rfl, rfl, by simp⟩

/-- C10 amended: the single-numeric-token heuristic governs resolution only
when the exact id-substituted path resolves to no existing file (strategy 1
fails) while the template file itself exists.  Then, if the stem's sole numeric
token equals the requested id, the template's payload is returned with its `id`
field overwritten to `int(id)` (for object payloads; others are returned
untouched); if the token differs, the endpoint is skipped.  When the declared
template path is brace-free and the file exists, strategy 1 returns the file
unmodified instead, so the heuristic never fires there. -/
theorem c10_single_token_heuristic (env : Env)
    (method path status sp mp rid tok : String)
    (item : PathItem) (responses : Responses) (rest : List (String × PathItem))
    (pp : List (String × String)) (tp : Json)
    (hmatch : path_matches sp path = true)
    (hop : lookupStr item (pyLower method) = some responses)
    (hst : lookupStr responses status = some (some mp))
    (hmp : ¬(mp = ""))
    (hid : lookupStr (updKeys pp (resolve_path_params sp path)) "id" = some rid)
    (hs1 : ∀ fp, pyFormat (env.specDir ++ "/" ++ mp)
              (updKeys pp (resolve_path_params sp path)) = some fp →
            fsGet env fp = none)
    (htp : fsGet env (env.specDir ++ "/" ++ mp) = some tp)
    (hnums : digitRuns (pyStem (env.specDir ++ "/" ++ mp)).data = [tok]) :
    (tok = rid →
       findGo env method path status ((sp, item) :: rest) pp
         = (some (overwriteId rid tp), updKeys pp (resolve_path_params sp path)))
    ∧ (¬(tok = rid) →
       findGo env method path status ((sp, item) :: rest) pp
         = findGo env method path status rest
             (updKeys pp (resolve_path_params sp path))) := by
  have hstrat1 :
      (match pyFormat (env.specDir ++ "/" ++ mp)
          (updKeys pp (resolve_path_params sp path)) with
       | some fp => fsGet env fp
       | none => none) = (none : Option Json) := by
    cases hf : pyFormat (env.specDir ++ "/" ++ mp)
        (updKeys pp (resolve_path_params sp path)) with
    | none => rfl
    | some fp => simpa using hs1 fp hf
  constructor
  · intro htok
    simp only [findGo, hmatch, if_true, hop, hst, hid]
    rw [if_neg hmp, hstrat1, htp]
    simp [matchNums, hnums, htok]
  · intro htok
    simp only [findGo, hmatch, if_true, hop, hst, hid]
    rw [if_neg hmp, hstrat1, htp]
    simp [matchNums, hnums, htok]

/-- Environment for the C10 witness: a declared template path whose literal name
contains a brace field unknown to the params (so strategy 1's `format` raises
KeyError) while a file of exactly that literal name exists; its stem's only
numeric token is "200". -/
def envC10w : Env :=
  { apiName := "posts", specDir := "specs",
    specPaths := [("/posts/{id}", [("get", [("200", some "payloads/GET_{x}posts_200.json")])])],
    fs := [("specs/payloads/GET_{x}posts_200.json",
            Json.obj [("id", Json.num 7), ("title", Json.str "A")])] }

theorem c10_witness :
    (("200" : String) = "200" →
       findGo envC10w "get" "/posts/200" "200"
           [("/posts/{id}", [("get", [("200", some "payloads/GET_{x}posts_200.json")])])] []
         = (some (overwriteId "200" (Json.obj [("id", Json.num 7), ("title", Json.str "A")])),
            updKeys [] (resolve_path_params "/posts/{id}" "/posts/200")))
    ∧ (¬(("200" : String) = "200") →
       findGo envC10w "get" "/posts/200" "200"
           [("/posts/{id}", [("get", [("200", some "payloads/GET_{x}posts_200.json")])])] []
         = findGo envC10w "get" "/posts/200" "200" []
             (updKeys [] (resolve_path_params "/posts/{id}" "/posts/200"))) :=
  c10_single_token_heuristic envC10w "get" "/posts/200" "200" "/posts/{id}"
    "payloads/GET_{x}posts_200.json" "200" "200"
    [("get", [("200", some "payloads/GET_{x}posts_200.json")])]
    [("200", some "payloads/GET_{x}posts_200.json")] [] []
    (Json.obj [("id", Json.num 7), ("title", Json.str "A")])
    rfl rfl rfl (by decide) rfl
    (fun fp h => by cases h)
    rfl rfl

/-! ## Claim C1: behaviour on an already-deleted id -/

theorem lookupStr_ne_nil {α : Type} {l : List (String × α)} {k : String} {v : α}
    (h : lookupStr l k = some v) : ¬(l = []) := by
  intro he
  subst he
  simp [lookupStr] at h

/-- Environment for the C1 counterexample: `GET /posts/{id}` declares an
id=1-specific 200 payload that exists on disk; a DELETE operation is declared. -/
def envC1 : Env :=
  { apiName := "posts", specDir := "specs",
    specPaths := [("/posts/{id}",
       [("get", [("200", some "payloads/GET_posts_1_200.json")]),
        ("delete", [("204", none)])])],
    fs := [("specs/payloads/GET_posts_1_200.json",
            Json.obj [("id", Json.num 1), ("title", Json.str "A")])] }

/-- C1 counterexample: with `deleted_posts_1` already recorded, a second DELETE
of `/posts/1` answers 204 — not 404 — because the DELETE branch only checks that
the equivalent GET-200 payload still resolves and never consults the deletion
marks. -/
theorem c1_counterexample :
    handle_request envC1 ["deleted_posts_1"] "delete" "/posts/{id}" "/posts/1" none
      = ((204, none), ["deleted_posts_1"])
    ∧ ¬((204 : Nat) = 404) :=
  ⟨rfl, by decide⟩

/-- C1 amended: deletion marks influence only GET dispatch.  Once an id is
marked deleted: (a) a DELETE for it still answers an empty 204 — keeping the
mark — whenever the equivalent GET-200 resolution succeeds; (b) a PUT for it is
dispatched without consulting the marks (its response equals the response on a
mark-free server); (c) a GET for it is forced to 404 exactly when the declared
404 resolution yields a truthy payload (C2 records the fall-through). -/
theorem c1_deleted_lifecycle (env : Env) (deleted : List String)
    (sp ap rid : String) (rb : Option Json)
    (hid : lookupStr (resolve_path_params sp ap) "id" = some rid)
    (hmark : memb ("deleted_" ++ env.apiName ++ "_" ++ rid) deleted = true) :
    ((fmpCall env "get" ap "200" (resolve_path_params sp ap)).1.isSome →
       handle_request env deleted "delete" sp ap rb = ((204, none), deleted))
    ∧ (handle_request env deleted "put" sp ap rb
         = ((handle_request env [] "put" sp ap rb).1, deleted))
    ∧ (optTruthy (fmpCall env "get" ap "404" (resolve_path_params sp ap)).1 = true →
       handle_request env deleted "get" sp ap rb
         = ((404, (fmpCall env "get" ap "404" (resolve_path_params sp ap)).1), deleted)) := by
  refine ⟨?_, ?_, ?_⟩
  · intro hsome
    obtain ⟨x, hx⟩ := Option.isSome_iff_exists.mp hsome
    simp [handle_request, show pyLower "delete" = "delete" from rfl, hid, hx,
      memb_insertMark hmark]
  · rfl
  · intro htr
    simp [handle_request, show pyLower "get" = "get" from rfl, hid, hmark, htr]

/-- Environment for the C1 witness: id-1 payloads for both 200 and 404 exist. -/
def envC1w : Env :=
  { apiName := "posts", specDir := "specs",
    specPaths := [("/posts/{id}",
       [("get", [("200", some "payloads/GET_posts_1_200.json"),
                 ("404", some "payloads/GET_posts_1_404.json")]),
        ("delete", [("204", none)]),
        ("put", [("200", some "payloads/GET_posts_1_200.json")])])],
    fs := [("specs/payloads/GET_posts_1_200.json",
            Json.obj [("id", Json.num 1), ("title", Json.str "A")]),
           ("specs/payloads/GET_posts_1_404.json",
            Json.obj [("error", Json.str "Not found")])] }

theorem c1_witness :
    handle_request envC1w ["deleted_posts_1"] "delete" "/posts/{id}" "/posts/1" none
      = ((204, none), ["deleted_posts_1"])
    ∧ handle_request envC1w ["deleted_posts_1"] "put" "/posts/{id}" "/posts/1" none
      = ((handle_request envC1w [] "put" "/posts/{id}" "/posts/1" none).1, ["deleted_posts_1"])
    ∧ handle_request envC1w ["deleted_posts_1"] "get" "/posts/{id}" "/posts/1" none
      = ((404, (fmpCall envC1w "get" "/posts/1" "404"
            (resolve_path_params "/posts/{id}" "/posts/1")).1), ["deleted_posts_1"]) :=
  ⟨(c1_deleted_lifecycle envC1w ["deleted_posts_1"] "/posts/{id}" "/posts/1" "1" none
      rfl rfl).1 (by decide),
   (c1_deleted_lifecycle envC1w ["deleted_posts_1"] "/posts/{id}" "/posts/1" "1" none
      rfl rfl).2.1,
   (c1_deleted_lifecycle envC1w ["deleted_posts_1"] "/posts/{id}" "/posts/1" "1" none
      rfl rfl).2.2 (by decide)⟩

/-! ## Claim C2: GET on a deleted id -/

/-- Environment for C2: a deleted id whose spec declares no 404 payload at all,
while the 200 payload still resolves. -/
def envC2 : Env :=
  { apiName := "posts", specDir := "specs",
    specPaths := [("/posts/{id}",
       [("get", [("200", some "payloads/GET_posts_1_200.json")])])],
    fs := [("specs/payloads/GET_posts_1_200.json",
            Json.obj [("id", Json.num 1), ("title", Json.str "A")])] }

/-- C2 counterexample: id 1 is marked deleted yet — no 404 payload being
declared — GET `/posts/1` is resolved normally and answers 200 with the stored
payload, not a forced 404 with a synthetic body. -/
theorem c2_counterexample :
    handle_request envC2 ["deleted_posts_1"] "get" "/posts/{id}" "/posts/1" none
      = ((200, some (Json.obj [("id", Json.num 1), ("title", Json.str "A")])),
         ["deleted_posts_1"])
    ∧ ¬((200 : Nat) = 404) :=
  ⟨rfl, by decide⟩

/-- C2 amended: for a GET whose id is marked deleted the dispatcher forces 404
with the declared payload exactly when the 404 resolution yields a truthy
payload; otherwise the request falls through and is handled by the normal
dispatch tail (so it can resolve normally) — the synthetic error body is never
produced by the deleted-id branch itself. -/
theorem c2_deleted_get (env : Env) (deleted : List String)
    (sp ap rid : String) (rb : Option Json)
    (hid : lookupStr (resolve_path_params sp ap) "id" = some rid)
    (hmark : memb ("deleted_" ++ env.apiName ++ "_" ++ rid) deleted = true) :
    (optTruthy (fmpCall env "get" ap "404" (resolve_path_params sp ap)).1 = true →
       handle_request env deleted "get" sp ap rb
         = ((404, (fmpCall env "get" ap "404" (resolve_path_params sp ap)).1), deleted))
    ∧ (optTruthy (fmpCall env "get" ap "404" (resolve_path_params sp ap)).1 = false →
       handle_request env deleted "get" sp ap rb
         = (handle_tail env "get" "get" ap rb
              (fmpCall env "get" ap "404" (resolve_path_params sp ap)).2, deleted)) := by
  constructor
  · intro htr
    simp [handle_request, show pyLower "get" = "get" from rfl, hid, hmark, htr]
  · intro hfb
    simp [handle_request, show pyLower "get" = "get" from rfl, hid, hmark, hfb]

theorem c2_witness :
    handle_request envC2 ["deleted_posts_1"] "get" "/posts/{id}" "/posts/1" none
      = (handle_tail envC2 "get" "get" "/posts/1" none
           (fmpCall envC2 "get" "/posts/1" "404"
             (resolve_path_params "/posts/{id}" "/posts/1")).2, ["deleted_posts_1"]) :=
  (c2_deleted_get envC2 ["deleted_posts_1"] "/posts/{id}" "/posts/1" "1" none
     rfl rfl).2 (by decide)

/-! ## Claim C3: PUT semantics -/

/-- Environment for C3: `PUT /posts/{id}` declares its own 200 payload; the GET
operation declares no 200 payload at all, so "resolution via an equivalent GET"
would fail here. -/
def envC3 : Env :=
  { apiName := "posts", specDir := "specs",
    specPaths := [("/posts/{id}",
       [("put", [("200", some "payloads/PUT_posts_1_200.json")]),
        ("get", [])])],
    fs := [("specs/payloads/PUT_posts_1_200.json",
            Json.obj [("id", Json.num 1), ("title", Json.str "A"), ("body", Json.str "B")])] }

/-- C3 counterexample: `PUT /posts/1` with body `{"title": null}`.  The claim
predicts 404 (the equivalent GET resolves nothing here) and, were the update to
happen, retention of the stored `"A"` for the null field.  The code resolves
via the PUT operation's own 200 payload and `dict.update` lets the explicit
null override, answering 200 with `title = null`. -/
theorem c3_counterexample :
    handle_request envC3 [] "put" "/posts/{id}" "/posts/1"
        (some (Json.obj [("title", Json.null)]))
      = ((200, some (Json.obj
            [("id", Json.num 1), ("title", Json.null), ("body", Json.str "B")])), [])
    ∧ ¬((200 : Nat) = 404)
    ∧ ¬((Json.null : Json) = Json.str "A") :=
  ⟨rfl, by decide, fun h => Json.noConfusion h⟩

/-- C3 amended: a PUT with an id parameter resolves via its own declared 200
payload (method `"put"`); a miss yields 404 (declared truthy 404 payload, else
the synthetic body); on a hit the parsed object body is shallow-merged over the
payload with every supplied field overriding — explicit nulls included — omitted
fields retained, the `id` field is then forced to `int` of the path parameter
when that parses, and the status is 200. -/
theorem c3_put_semantics (env : Env) (deleted : List String)
    (sp ap rid rid2 : String) (n : Int)
    (bf plf : List (String × Json)) (pp2 : List (String × String))
    (hid : lookupStr (resolve_path_params sp ap) "id" = some rid) :
    (findGo env "put" ap "200" env.specPaths (resolve_path_params sp ap)
         = (some (Json.obj plf), pp2) →
     lookupStr pp2 "id" = some rid2 →
     pyInt rid2 = some n →
       handle_request env deleted "put" sp ap (some (Json.obj bf))
         = ((200, some (Json.obj (setKey (updKeys plf bf) "id" (Json.num n)))), deleted))
    ∧ (findGo env "put" ap "200" env.specPaths (resolve_path_params sp ap)
         = (none, pp2) →
       optTruthy (findGo env "put" ap "404" env.specPaths pp2).1 = false →
       handle_request env deleted "put" sp ap (some (Json.obj bf))
         = ((404, some (synthBody ("No mock payload found for put " ++ ap))), deleted))
    ∧ (findGo env "put" ap "200" env.specPaths (resolve_path_params sp ap)
         = (none, pp2) →
       optTruthy (findGo env "put" ap "404" env.specPaths pp2).1 = true →
       handle_request env deleted "put" sp ap (some (Json.obj bf))
         = ((404, (findGo env "put" ap "404" env.specPaths pp2).1), deleted))
    ∧ (∀ k v, lookupStr bf k = some v → keysNodup bf = true →
         lookupStr (updKeys plf bf) k = some v)
    ∧ (∀ k, lookupStr bf k = none →
         lookupStr (updKeys plf bf) k = lookupStr plf k)
    ∧ lookupStr (setKey (updKeys plf bf) "id" (Json.num n)) "id" = some (Json.num n) := by
  have hpp : ¬(resolve_path_params sp ap = []) := lookupStr_ne_nil hid
  refine ⟨?_, ?_, ?_, ?_, ?_, ?_⟩
  · intro h200 hid2 hint
    simp [handle_request, handle_tail, fmpCall,
      show pyLower "put" = "put" from rfl, defaultStatusFor, hpp, h200, hid2, hint,
      show pyStatusNat "200" = 200 from rfl]
  · intro h200 h404
    simp [handle_request, handle_tail, fmpCall,
      show pyLower "put" = "put" from rfl, defaultStatusFor, hpp, h200, h404]
  · intro h200 h404
    simp [handle_request, handle_tail, fmpCall,
      show pyLower "put" = "put" from rfl, defaultStatusFor, hpp, h200, h404]
  · exact fun k v hk hnd => lookupStr_updKeys_some plf bf k v hnd hk
  · exact fun k hk => lookupStr_updKeys_none plf bf k hk
  · exact lookupStr_setKey_self _ _ _

/-- Environment for the second half of the C3 witness: PUT declares no 200
payload (so its resolution misses) but declares a truthy 404 payload. -/
def envC3w : Env :=
  { apiName := "posts", specDir := "specs",
    specPaths := [("/posts/{id}",
       [("put", [("404", some "payloads/PUT_posts_404.json")])])],
    fs := [("specs/payloads/PUT_posts_404.json",
            Json.obj [("error", Json.str "Not found")])] }

theorem c3_witness :
    handle_request envC3 [] "put" "/posts/{id}" "/posts/1"
        (some (Json.obj [("title", Json.null)]))
      = ((200, some (Json.obj (setKey
            (updKeys [("id", Json.num 1), ("title", Json.str "A"), ("body", Json.str "B")]
              [("title", Json.null)])
            "id" (Json.num 1)))), [])
    ∧ handle_request envC3w [] "put" "/posts/{id}" "/posts/1"
        (some (Json.obj [("title", Json.null)]))
      = ((404, (findGo envC3w "put" "/posts/1" "404" envC3w.specPaths [("id", "1")]).1), []) :=
  ⟨(c3_put_semantics envC3 [] "/posts/{id}" "/posts/1" "1" "1" 1
      [("title", Json.null)]
      [("id", Json.num 1), ("title", Json.str "A"), ("body", Json.str "B")]
      [("id", "1")] rfl).1 rfl rfl rfl,
   (c3_put_semantics envC3w [] "/posts/{id}" "/posts/1" "1" "1" 1
      [("title", Json.null)] []
      [("id", "1")] rfl).2.2.1 rfl rfl⟩

/-! ## Claim C8: path matching and parameter extraction

The claim is about templates whose `/`-segments are each either a plain literal
or a single `{name}` placeholder.  `Seg` represents one such segment, and
`buildTemplate` renders a segment list back into the template string the source
functions consume; `goodSeg` pins down the fragment on which the character-level
model of the Python regex is faithful (no regex metacharacters in literals, no
nested/empty braces). -/

/-- One segment of a well-formed path template. -/
inductive Seg where
  | lit (cs : List Char)
  | par (name : List Char)

/-- The characters of a segment as written in the template. -/
def segChars : Seg → List Char
  | .lit cs => cs
  | .par n => '{' :: (n ++ ['}'])

/-- Characters allowed in literals and parameter names: not the separator, not a
brace, and not a regex metacharacter (on which the model is faithful to
`re.sub`/`re.match`). -/
def plainChar (c : Char) : Bool :=
  !(c = '/') && !(c = '{') && !(c = '}') && !(c = '.') && !(c = '^') && !(c = '$')
    && !(c = '*') && !(c = '+') && !(c = '?') && !(c = '(') && !(c = ')')
    && !(c = '[') && !(c = ']') && !(c = '|') && !(c = '\\')

/-- Well-formedness of one segment. -/
def goodSeg : Seg → Bool
  | .lit cs => cs.all plainChar
  | .par n => !n.isEmpty && n.all plainChar

/-- Render a segment list as the template string (`/`-joined). -/
def buildTemplate : List Seg → List Char
  | [] => []
  | [s] => segChars s
  | s :: s2 :: rest => segChars s ++ '/' :: buildTemplate (s2 :: rest)

/-- The claim's segment-wise matching condition: literal segments must equal the
concrete segment, parameter segments match exactly one non-empty segment, and
the segment counts must agree. -/
def segsMatch : List Seg → List (List Char) → Bool
  | [], [] => true
  | .lit cs :: ts, a :: as => cs == a && segsMatch ts as
  | .par _ :: ts, a :: as => !a.isEmpty && segsMatch ts as
  | _ :: _, [] => false
  | [], _ :: _ => false

/-- The compiled pieces of one segment. -/
def segPieces : Seg → List RPiece
  | .lit cs => cs.map .lit
  | .par _ => [.param]

/-! ### `splitSeg` facts -/

theorem splitSeg_ne_nil (cs : List Char) : ¬(splitSeg cs = []) := by
  induction cs with
  | nil => simp [splitSeg]
  | cons c rest ih =>
      by_cases h : c = '/'
      · simp [splitSeg, h]
      · simp only [splitSeg, h, if_false]
        cases hs : splitSeg rest with
        | nil => simp
        | cons s ss => simp

theorem splitSeg_no_slash (cs : List Char) (h : ∀ c ∈ cs, ¬(c = '/')) :
    splitSeg cs = [cs] := by
  induction cs with
  | nil => rfl
  | cons c rest ih =>
      have hc := h c (by simp)
      have hr := ih (fun c' hc' => h c' (by simp [hc']))
      simp [splitSeg, hc, hr]

theorem splitSeg_append (xs ys : List Char) (h : ∀ c ∈ xs, ¬(c = '/')) :
    splitSeg (xs ++ '/' :: ys) = xs :: splitSeg ys := by
  induction xs with
  | nil => simp [splitSeg]
  | cons c rest ih =>
      have hc := h c (by simp)
      have hr := ih (fun c' hc' => h c' (by simp [hc']))
      simp [splitSeg, hc, hr]

theorem mem_slash_decomp (as : List Char) (h : '/' ∈ as) :
    ∃ a0 a1, as = a0 ++ '/' :: a1 ∧ ∀ c ∈ a0, ¬(c = '/') := by
  induction as with
  | nil => cases h
  | cons a as ih =>
      by_cases ha : a = '/'
      · exact ⟨[], as, by simp [ha], by simp⟩
      · have h' : '/' ∈ as := by
          rcases List.mem_cons.mp h with h0 | h0
          · exact absurd h0.symm ha
          · exact h0
        obtain ⟨a0, a1, rfl, hns⟩ := ih h'
        refine ⟨a :: a0, a1, rfl, ?_⟩
        intro c hc
        rcases List.mem_cons.mp hc with rfl | hc
        · exact ha
        · exact hns c hc

theorem append_slash_inj (xs : List Char) :
    ∀ (ys u v : List Char), (∀ c ∈ xs, ¬(c = '/')) → (∀ c ∈ ys, ¬(c = '/')) →
    xs ++ '/' :: u = ys ++ '/' :: v → xs = ys ∧ u = v := by
  induction xs with
  | nil =>
      intro ys u v _ hy h
      cases ys with
      | nil => simpa using h
      | cons y ys' =>
          injection h with h1 h2
          exact absurd h1.symm (hy y (by simp))
  | cons x xs' ih =>
      intro ys u v hx hy h
      cases ys with
      | nil =>
          injection h with h1 h2
          exact absurd h1 (hx x (by simp))
      | cons y ys' =>
          injection h with h1 h2
          obtain ⟨hxy, huv⟩ := ih ys' u v
            (fun c hc => hx c (by simp [hc])) (fun c hc => hy c (by simp [hc])) h2
          exact ⟨by rw [h1, hxy], huv⟩

/-! ### `segsMatch` facts -/

theorem segsMatch_cons_nil (x : Seg) (l : List Seg) : segsMatch (x :: l) [] = false := by
  cases x <;> rfl

theorem segsMatch_len (tss : List Seg) :
    ∀ xss : List (List Char), segsMatch tss xss = true → tss.length = xss.length := by
  induction tss with
  | nil =>
      intro xss h
      cases xss with
      | nil => rfl
      | cons x xs => simp [segsMatch] at h
  | cons s rest ih =>
      intro xss h
      cases xss with
      | nil => rw [segsMatch_cons_nil] at h; cases h
      | cons x xs =>
          cases s with
          | lit cs =>
              simp only [segsMatch, Bool.and_eq_true] at h
              simp [ih xs h.2]
          | par n =>
              simp only [segsMatch, Bool.and_eq_true] at h
              simp [ih xs h.2]

theorem segsMatch_two_one (x y : Seg) (l : List Seg) (a : List Char) :
    segsMatch (x :: y :: l) [a] = false := by
  cases x <;> simp [segsMatch, segsMatch_cons_nil]

/-! ### `compileTemplate` on well-formed templates -/

theorem compileAux_lit_append (ls cs : List Char) (h : ∀ c ∈ ls, ¬(c = '{')) :
    compileAux (ls ++ cs) none = ls.map .lit ++ compileAux cs none := by
  induction ls with
  | nil => rfl
  | cons c rest ih =>
      have hc := h c (by simp)
      have hr := ih (fun c' hc' => h c' (by simp [hc']))
      simp [compileAux, hc, hr]

theorem compileAux_brace_scan (n : List Char) :
    ∀ (cs acc : List Char), (∀ c ∈ n, ¬(c = '}')) →
    compileAux (n ++ '}' :: cs) (some acc) = compileAux ('}' :: cs) (some (n.reverse ++ acc)) := by
  induction n with
  | nil => intro cs acc _; rfl
  | cons c rest ih =>
      intro cs acc h
      have hc := h c (by simp)
      have step : compileAux ((c :: rest) ++ '}' :: cs) (some acc)
          = compileAux (rest ++ '}' :: cs) (some (c :: acc)) := by
        simp [compileAux, hc]
      rw [step, ih cs (c :: acc) (fun c' hc' => h c' (by simp [hc']))]
      simp

theorem compileAux_param (n cs : List Char) (hne : ¬(n = []))
    (h : ∀ c ∈ n, ¬(c = '}')) :
    compileAux ('{' :: (n ++ '}' :: cs)) none = .param :: compileAux cs none := by
  have h1 : compileAux ('{' :: (n ++ '}' :: cs)) none
      = compileAux (n ++ '}' :: cs) (some []) := by
    simp [compileAux]
  rw [h1, compileAux_brace_scan n cs [] h]
  simp [compileAux, hne]

theorem plainChar_props (c : Char) (h : plainChar c = true) :
    ¬(c = '/') ∧ ¬(c = '{') ∧ ¬(c = '}') := by
  simp only [plainChar, Bool.and_eq_true, Bool.not_eq_true', decide_eq_false_iff_not] at h
  tauto

theorem goodSeg_lit_all (cs : List Char) (h : goodSeg (.lit cs) = true) :
    ∀ c ∈ cs, plainChar c = true := by
  simpa [goodSeg, List.all_eq_true] using h

theorem goodSeg_par_all (n : List Char) (h : goodSeg (.par n) = true) :
    ¬(n = []) ∧ ∀ c ∈ n, plainChar c = true := by
  simp only [goodSeg, Bool.and_eq_true, Bool.not_eq_true', List.all_eq_true] at h
  rcases h with ⟨h1, h2⟩
  refine ⟨?_, h2⟩
  intro hn
  subst hn
  simp at h1

/-- A well-formed segment's characters never include the separator. -/
theorem segChars_no_slash (s : Seg) (hs : goodSeg s = true) :
    ∀ c ∈ segChars s, ¬(c = '/') := by
  cases s with
  | lit cs =>
      intro c hc
      exact (plainChar_props c (goodSeg_lit_all cs hs c hc)).1
  | par n =>
      intro c hc
      simp only [segChars] at hc
      rcases List.mem_cons.mp hc with rfl | hc2
      · decide
      rcases List.mem_append.mp hc2 with hc3 | hc3
      · exact (plainChar_props c ((goodSeg_par_all n hs).2 c hc3)).1
      · rcases List.mem_singleton.mp hc3 with rfl
        decide

/-- Compiling one well-formed segment yields its pieces. -/
theorem compile_segChars (s : Seg) (hs : goodSeg s = true) (cs : List Char) :
    compileAux (segChars s ++ cs) none = segPieces s ++ compileAux cs none := by
  cases s with
  | lit ls =>
      exact compileAux_lit_append ls cs
        (fun c hc => (plainChar_props c (goodSeg_lit_all ls hs c hc)).2.1)
  | par n =>
      obtain ⟨hne, hall⟩ := goodSeg_par_all n hs
      have : segChars (.par n) ++ cs = '{' :: (n ++ '}' :: cs) := by
        simp [segChars]
      rw [this, compileAux_param n cs hne
        (fun c hc => (plainChar_props c (hall c hc)).2.2)]
      rfl

/-! ### `rmatch` decompositions -/

theorem rmatch_nil_iff (as : List Char) : rmatch [] as = true ↔ as = [] := by
  cases as <;> simp [rmatch]

/-- A run of literal pieces consumes exactly those characters. -/
theorem rmatch_lits (ls : List Char) :
    ∀ (ps : List RPiece) (as : List Char),
    rmatch (ls.map .lit ++ ps) as = true
      ↔ ∃ as', as = ls ++ as' ∧ rmatch ps as' = true := by
  induction ls with
  | nil =>
      intro ps as
      constructor
      · intro h; exact ⟨as, rfl, h⟩
      · rintro ⟨as', rfl, h⟩; simpa using h
  | cons c ls ih =>
      intro ps as
      cases as with
      | nil =>
          simp only [List.map_cons, List.cons_append, rmatch]
          constructor
          · intro h; cases h
          · rintro ⟨as', h, -⟩
            cases h
      | cons a as =>
          simp only [List.map_cons, List.cons_append, rmatch, Bool.and_eq_true,
            decide_eq_true_eq]
          constructor
          · rintro ⟨rfl, h⟩
            obtain ⟨as', rfl, h'⟩ := (ih ps as).mp h
            exact ⟨as', rfl, h'⟩
          · rintro ⟨as', heq, h'⟩
            injection heq with h1 h2
            subst h1
            exact ⟨rfl, (ih ps as).mpr ⟨as', h2, h'⟩⟩

/-- A `[^/]+` piece consumes exactly one non-empty slash-free prefix (in the
sense of match existence). -/
theorem rmatch_param (ps : List RPiece) :
    ∀ as : List Char,
    rmatch (.param :: ps) as = true
      ↔ ∃ pre as', as = pre ++ as' ∧ ¬(pre = []) ∧ (∀ c ∈ pre, ¬(c = '/'))
          ∧ rmatch ps as' = true := by
  intro as
  induction as with
  | nil =>
      simp only [rmatch]
      constructor
      · intro h; cases h
      · rintro ⟨pre, as', heq, hne, -, -⟩
        rcases List.append_eq_nil.mp heq.symm with ⟨h1, -⟩
        exact absurd h1 hne
  | cons a as ih =>
      simp only [rmatch, Bool.and_eq_true, Bool.or_eq_true, Bool.not_eq_true',
        decide_eq_false_iff_not]
      constructor
      · rintro ⟨ha, h | h⟩
        · exact ⟨[a], as, rfl, by simp, by simpa using ha, h⟩
        · obtain ⟨pre, as', rfl, hne, hns, h'⟩ := ih.mp h
          refine ⟨a :: pre, as', rfl, by simp, ?_, h'⟩
          intro c hc
          rcases List.mem_cons.mp hc with rfl | hc
          · exact ha
          · exact hns c hc
      · rintro ⟨pre, as', heq, hne, hns, h'⟩
        cases pre with
        | nil => exact absurd rfl hne
        | cons p pre' =>
            rw [List.cons_append] at heq
            injection heq with h1 h2
            subst h1
            refine ⟨hns a (by simp), ?_⟩
            cases pre' with
            | nil =>
                left
                have h3 : as = as' := by simpa using h2
                rw [h3]
                exact h'
            | cons q pre'' =>
                right
                exact ih.mpr ⟨q :: pre'', as', h2, by simp,
                  fun c hc => hns c (List.mem_cons_of_mem _ hc), h'⟩

theorem isEmpty_false_of_ne_nil {α : Type} {l : List α} (h : ¬(l = [])) :
    l.isEmpty = false := by
  cases l with
  | nil => exact absurd rfl h
  | cons a l => rfl

theorem ne_nil_of_isEmpty_false {α : Type} {l : List α} (h : l.isEmpty = false) :
    ¬(l = []) := by
  intro hh
  subst hh
  simp at h

theorem rmatch_lit_cons (c : Char) (ps : List RPiece) (as : List Char) :
    rmatch (.lit c :: ps) as = true ↔ ∃ as', as = c :: as' ∧ rmatch ps as' = true := by
  cases as with
  | nil =>
      simp only [rmatch]
      constructor
      · intro h; cases h
      · rintro ⟨as', h, -⟩; cases h
  | cons a as =>
      simp only [rmatch, Bool.and_eq_true, decide_eq_true_eq]
      constructor
      · rintro ⟨rfl, h⟩; exact ⟨as, rfl, h⟩
      · rintro ⟨as', heq, h⟩
        injection heq with h1 h2
        subst h1
        subst h2
        exact ⟨rfl, h⟩

/-- Base case of the matcher/segment equivalence: a single literal segment. -/
theorem single_lit_equiv (ls : List Char) (hns : ∀ c ∈ ls, ¬(c = '/'))
    (as : List Char) :
    rmatch (ls.map .lit) as = true ↔ segsMatch [.lit ls] (splitSeg as) = true := by
  have hl : rmatch (ls.map .lit) as = true ↔ as = ls := by
    have h0 := rmatch_lits ls [] as
    rw [List.append_nil] at h0
    rw [h0]
    constructor
    · rintro ⟨as', rfl, h⟩
      rw [(rmatch_nil_iff as').mp h, List.append_nil]
    · intro h
      subst h
      exact ⟨[], by simp, by simp [rmatch]⟩
  rw [hl]
  by_cases hsl : '/' ∈ as
  · obtain ⟨a0, a1, rfl, h0⟩ := mem_slash_decomp _ hsl
    rw [splitSeg_append a0 a1 h0]
    constructor
    · intro h
      exfalso
      have hmem : '/' ∈ ls := by rw [← h]; simp
      exact hns '/' hmem rfl
    · intro h
      exfalso
      cases hsp : splitSeg a1 with
      | nil => exact splitSeg_ne_nil a1 hsp
      | cons y ys =>
          rw [hsp] at h
          simp [segsMatch] at h
  · have hone : splitSeg as = [as] :=
      splitSeg_no_slash as (fun c hc heq => hsl (heq ▸ hc))
    rw [hone]
    simp only [segsMatch, Bool.and_eq_true, beq_iff_eq]
    constructor
    · intro h; exact ⟨h.symm, trivial⟩
    · intro h; exact h.1.symm

/-- Base case of the matcher/segment equivalence: a single `{name}` segment. -/
theorem single_par_equiv (n : List Char) (as : List Char) :
    rmatch [RPiece.param] as = true ↔ segsMatch [.par n] (splitSeg as) = true := by
  have hl : rmatch [RPiece.param] as = true
      ↔ (¬(as = []) ∧ ∀ c ∈ as, ¬(c = '/')) := by
    rw [show [RPiece.param] = RPiece.param :: ([] : List RPiece) from rfl,
      rmatch_param]
    constructor
    · rintro ⟨pre, as', rfl, hne, hnsp, h⟩
      rw [(rmatch_nil_iff as').mp h, List.append_nil]
      exact ⟨hne, hnsp⟩
    · rintro ⟨hne, hnsp⟩
      exact ⟨as, [], by simp, hne, hnsp, by simp [rmatch]⟩
  rw [hl]
  by_cases hsl : '/' ∈ as
  · constructor
    · rintro ⟨-, hnsp⟩
      exact absurd rfl (hnsp '/' hsl)
    · intro h
      exfalso
      obtain ⟨a0, a1, rfl, h0⟩ := mem_slash_decomp _ hsl
      rw [splitSeg_append a0 a1 h0] at h
      cases hsp : splitSeg a1 with
      | nil => exact splitSeg_ne_nil a1 hsp
      | cons y ys =>
          rw [hsp] at h
          simp [segsMatch] at h
  · have hone : splitSeg as = [as] :=
      splitSeg_no_slash as (fun c hc heq => hsl (heq ▸ hc))
    rw [hone]
    simp only [segsMatch, Bool.and_eq_true, Bool.not_eq_true']
    constructor
    · rintro ⟨hne, -⟩
      exact ⟨isEmpty_false_of_ne_nil hne, trivial⟩
    · rintro ⟨hne, -⟩
      exact ⟨ne_nil_of_isEmpty_false hne, fun c hc heq => hsl (heq ▸ hc)⟩

/-- Inductive step of the matcher/segment equivalence. -/
theorem cons_equiv (s : Seg) (hs : goodSeg s = true) (t2 : List Seg)
    (hne2 : ¬(t2 = [])) (P : List RPiece)
    (hP : ∀ as : List Char, rmatch P as = true ↔ segsMatch t2 (splitSeg as) = true)
    (as : List Char) :
    rmatch (segPieces s ++ .lit '/' :: P) as = true
      ↔ segsMatch (s :: t2) (splitSeg as) = true := by
  have hnsl : ∀ c ∈ segChars s, ¬(c = '/') := segChars_no_slash s hs
  by_cases hsl : '/' ∈ as
  · obtain ⟨a0, a1, rfl, h0⟩ := mem_slash_decomp _ hsl
    rw [splitSeg_append a0 a1 h0]
    cases s with
    | lit ls =>
        have hls : ∀ c ∈ ls, ¬(c = '/') := hnsl
        constructor
        · intro h
          obtain ⟨as1, heq, h1⟩ := (rmatch_lits ls _ _).mp h
          obtain ⟨as2, heq2, h2⟩ := (rmatch_lit_cons '/' P as1).mp h1
          rw [heq2] at heq
          obtain ⟨he1, he2⟩ := append_slash_inj a0 ls a1 as2 h0 hls heq
          subst he2
          simp only [segsMatch, Bool.and_eq_true, beq_iff_eq]
          exact ⟨he1.symm, (hP a1).mp h2⟩
        · intro h
          simp only [segsMatch, Bool.and_eq_true, beq_iff_eq] at h
          obtain ⟨he1, h2⟩ := h
          rw [← he1]
          exact (rmatch_lits _ _ _).mpr ⟨'/' :: a1, rfl,
            (rmatch_lit_cons '/' P _).mpr ⟨a1, rfl, (hP a1).mpr h2⟩⟩
    | par n =>
        constructor
        · intro h
          obtain ⟨pre, as1, heq, hnep, hnsp, h1⟩ := (rmatch_param _ _).mp h
          obtain ⟨as2, heq2, h2⟩ := (rmatch_lit_cons '/' P as1).mp h1
          rw [heq2] at heq
          obtain ⟨he1, he2⟩ := append_slash_inj a0 pre a1 as2 h0 hnsp heq
          subst he2
          simp only [segsMatch, Bool.and_eq_true, Bool.not_eq_true']
          refine ⟨?_, (hP a1).mp h2⟩
          apply isEmpty_false_of_ne_nil
          rw [he1]
          exact hnep
        · intro h
          simp only [segsMatch, Bool.and_eq_true, Bool.not_eq_true'] at h
          obtain ⟨hne0, h2⟩ := h
          exact (rmatch_param _ _).mpr ⟨a0, '/' :: a1, rfl,
            ne_nil_of_isEmpty_false hne0, h0,
            (rmatch_lit_cons '/' P _).mpr ⟨a1, rfl, (hP a1).mpr h2⟩⟩
  · have hone : splitSeg as = [as] :=
      splitSeg_no_slash as (fun c hc heq => hsl (heq ▸ hc))
    rw [hone]
    cases ht2 : t2 with
    | nil => exact absurd ht2 hne2
    | cons y ys =>
        rw [segsMatch_two_one]
        constructor
        · intro h
          exfalso
          cases s with
          | lit ls =>
              obtain ⟨as1, heq, h1⟩ := (rmatch_lits ls _ _).mp h
              obtain ⟨as2, heq2, -⟩ := (rmatch_lit_cons '/' P as1).mp h1
              rw [heq2] at heq
              apply hsl
              rw [heq]
              simp
          | par n =>
              obtain ⟨pre, as1, heq, -, -, h1⟩ := (rmatch_param _ _).mp h
              obtain ⟨as2, heq2, -⟩ := (rmatch_lit_cons '/' P as1).mp h1
              rw [heq2] at heq
              apply hsl
              rw [heq]
              simp
        · intro h; cases h

/-- `splitSeg` of a rendered well-formed template recovers the segments. -/
theorem splitSeg_buildTemplate (tss : List Seg) :
    (∀ s ∈ tss, goodSeg s = true) → ¬(tss = []) →
    splitSeg (buildTemplate tss) = tss.map segChars := by
  induction tss with
  | nil => intro _ hne; exact absurd rfl hne
  | cons s rest ih =>
      intro hgood _
      have hs := hgood s (by simp)
      cases rest with
      | nil =>
          simp only [buildTemplate, List.map]
          exact splitSeg_no_slash _ (segChars_no_slash s hs)
      | cons s2 rest2 =>
          have hrest : ∀ x ∈ s2 :: rest2, goodSeg x = true :=
            fun x hx => hgood x (List.mem_cons_of_mem _ hx)
          simp only [buildTemplate, List.map]
          rw [splitSeg_append _ _ (segChars_no_slash s hs), ih hrest (by simp)]
          rfl

/-- On well-formed templates the compiled-regex matcher agrees with the
segment-wise condition. -/
theorem rmatch_eq_segsMatch (tss : List Seg) :
    (∀ s ∈ tss, goodSeg s = true) → ¬(tss = []) →
    ∀ as : List Char,
    (rmatch (compileTemplate (buildTemplate tss)) as = true
      ↔ segsMatch tss (splitSeg as) = true) := by
  induction tss with
  | nil => intro _ hne; exact absurd rfl hne
  | cons s rest ih =>
      intro hgood _
      have hs : goodSeg s = true := hgood s (by simp)
      cases rest with
      | nil =>
          intro as
          have hcomp : compileTemplate (buildTemplate [s]) = segPieces s := by
            have h0 := compile_segChars s hs []
            simpa [compileTemplate, buildTemplate, compileAux] using h0
          rw [hcomp]
          cases s with
          | lit ls => exact single_lit_equiv ls (segChars_no_slash (.lit ls) hs) as
          | par n => exact single_par_equiv n as
      | cons s2 rest2 =>
          intro as
          have hcomp : compileTemplate (buildTemplate (s :: s2 :: rest2))
              = segPieces s ++ .lit '/' :: compileTemplate (buildTemplate (s2 :: rest2)) := by
            show compileAux (segChars s ++ '/' :: buildTemplate (s2 :: rest2)) none = _
            rw [compile_segChars s hs]
            have h1 : compileAux ('/' :: buildTemplate (s2 :: rest2)) none
                = .lit '/' :: compileAux (buildTemplate (s2 :: rest2)) none := by
              simp [compileAux]
            rw [h1]
            rfl
          rw [hcomp]
          exact cons_equiv s hs (s2 :: rest2) (by simp) _
            (ih (fun x hx => hgood x (List.mem_cons_of_mem _ hx)) (by simp)) as

/-- C8: for a template whose segments are literals or single `{name}`
placeholders (over plain characters, where the source's unescaped-regex
matching is faithfully modelled): the template's segment count is the segment
count of its rendering; a segment-count mismatch with the concrete path yields
no extracted parameters and no match; and the template matches the concrete
path exactly when every literal segment equals the corresponding concrete
segment and every `{name}` segment corresponds to one non-empty concrete
segment (`segsMatch`). -/
theorem c8_path_matching (tss : List Seg) (a : List Char)
    (hgood : ∀ s ∈ tss, goodSeg s = true) (hne : ¬(tss = [])) :
    (splitSeg (buildTemplate tss)).length = tss.length
    ∧ ((splitSeg (buildTemplate tss)).length ≠ (splitSeg a).length →
        resolve_path_params ⟨buildTemplate tss⟩ ⟨a⟩ = []
        ∧ path_matches ⟨buildTemplate tss⟩ ⟨a⟩ = false)
    ∧ (path_matches ⟨buildTemplate tss⟩ ⟨a⟩ = true
        ↔ segsMatch tss (splitSeg a) = true) := by
  have hsplit := splitSeg_buildTemplate tss hgood hne
  have hlen : (splitSeg (buildTemplate tss)).length = tss.length := by
    rw [hsplit, List.length_map]
  have hiff : path_matches ⟨buildTemplate tss⟩ ⟨a⟩ = true
      ↔ segsMatch tss (splitSeg a) = true := by
    show rmatch (compileTemplate (buildTemplate tss)) a = true ↔ _
    exact rmatch_eq_segsMatch tss hgood hne a
  refine ⟨hlen, ?_, hiff⟩
  intro hmm
  refine ⟨by simp [resolve_path_params, hmm], ?_⟩
  cases hb : path_matches ⟨buildTemplate tss⟩ ⟨a⟩ with
  | false => rfl
  | true =>
      exfalso
      have hsm := hiff.mp hb
      have hl2 := segsMatch_len tss (splitSeg a) hsm
      rw [hlen] at hmm
      exact hmm hl2

theorem c8_witness :
    (path_matches ⟨buildTemplate [Seg.lit [], Seg.lit "posts".data, Seg.par "id".data]⟩
        ⟨("/posts/123").data⟩ = true
      ↔ segsMatch [Seg.lit [], Seg.lit "posts".data, Seg.par "id".data]
          (splitSeg ("/posts/123").data) = true)
    ∧ path_matches ⟨buildTemplate [Seg.lit [], Seg.lit "posts".data, Seg.par "id".data]⟩
        ⟨("/posts/123").data⟩ = true :=
  ⟨(c8_path_matching [Seg.lit [], Seg.lit "posts".data, Seg.par "id".data]
      ("/posts/123").data
      (fun s hs => by fin_cases hs <;> rfl) (by simp)).2.2, rfl⟩

end MockServer
